import Mathlib

/-!
Shallow embedding of the search/ranking core of the ContextVault repository.

Sources embedded here:
- `src/unnamed/part_005` (`VectorSearchService`): `combineSearchResults`,
  `hybridSearch`'s rank/filter/limit pipeline, `findSimilarEntries`.
- `src/src/services/embeddingService.js` (`EmbeddingService`):
  `calculateCosineSimilarity`, `findSimilarVectors`, `generateLocalEmbedding`,
  `calculateChecksum`, `generateEmbedding`.
- `src/backend/routes/search.js`: the hybrid route's weight validation.
- `src/unnamed/part_001` (Entry schema): the embedding-vector dimension validator.

Modelling conventions: JavaScript numbers are modelled as exact rationals (ℚ)
where only ring operations and comparisons occur, and as real numbers (ℝ) where
`Math.sqrt` is involved (cosine similarity).  Entry ids (Mongo ObjectIds, which
the source compares via `id.toString()`) are modelled as `Nat`; distinct ids map
to distinct strings, so `Nat` equality is faithful.  A thrown JS exception is an
`Except.error`.  `Array.prototype.sort` (Node 18 / ES2019) is a stable sort, so
it is modelled by insertion sort, which is stable; stability, sortedness and
permutation pin the model to the JS behaviour uniquely.
-/

/-- One formatted text-search hit as `textSearch` in `src/unnamed/part_005`
returns it: the entry id and the MongoDB `$meta: 'textScore'` relevance score.
Display metadata is omitted: the ranking code copies it through unchanged. -/
structure TextHit where
  id : Nat
  textScore : ℚ
deriving DecidableEq

/-- One vector-search hit as `vectorSearch` in `src/unnamed/part_005` returns
it: the entry id and the cosine similarity. -/
structure VecHit where
  id : Nat
  similarity : ℚ
deriving DecidableEq

/-- One merged entry of the `resultMap` built by `combineSearchResults`
(`src/unnamed/part_005` lines 423-453): `textScore`, `similarity` and the
weighted `combinedScore`. -/
structure CombinedResult where
  id : Nat
  textScore : ℚ
  similarity : ℚ
  combinedScore : ℚ
deriving DecidableEq

/-- `resultMap.has(id)` of `combineSearchResults`: whether the association list
modelling the JS `Map` already holds the id. -/
def containsId (m : List CombinedResult) (i : Nat) : Bool :=
  m.any (fun r => r.id == i)

/-- The first `forEach` of `combineSearchResults` (lines 427-434):
`resultMap.set(id, {...result, textScore: result.textScore || 0, similarity: 0,
combinedScore: textScore * textWeight})`.  A JS `Map.set` on a present key
replaces the value in place (insertion order kept); on an absent key it appends. -/
def insertTextHit (textWeight : ℚ) (m : List CombinedResult) (t : TextHit) :
    List CombinedResult :=
  let entry : CombinedResult := ⟨t.id, t.textScore, 0, t.textScore * textWeight⟩
  if containsId m t.id then
    m.map (fun r => if r.id == t.id then entry else r)
  else
    m ++ [entry]

/-- The second `forEach` of `combineSearchResults` (lines 437-450): when the id
is present, mutate the existing entry's `similarity` and recompute
`combinedScore = textScore * textWeight + similarity * vectorWeight`; otherwise
insert `{...result, textScore: 0, combinedScore: similarity * vectorWeight}`. -/
def insertVecHit (textWeight vectorWeight : ℚ) (m : List CombinedResult) (v : VecHit) :
    List CombinedResult :=
  if containsId m v.id then
    m.map (fun r =>
      if r.id == v.id then
        ⟨r.id, r.textScore, v.similarity,
          r.textScore * textWeight + v.similarity * vectorWeight⟩
      else r)
  else
    m ++ [⟨v.id, 0, v.similarity, v.similarity * vectorWeight⟩]

/-- `combineSearchResults(textResults, vectorResults, textWeight, vectorWeight)`
of `src/unnamed/part_005`: fold both hit lists into the id-keyed map and return
`Array.from(resultMap.values())` (insertion order). -/
def combineSearchResults (textResults : List TextHit) (vectorResults : List VecHit)
    (textWeight vectorWeight : ℚ) : List CombinedResult :=
  vectorResults.foldl (insertVecHit textWeight vectorWeight)
    (textResults.foldl (insertTextHit textWeight) [])

/-- The ordering of the hybrid sort `(a, b) => b.combinedScore - a.combinedScore`
(`src/unnamed/part_005` line 208): `a` sorts no later than `b` when
`b.combinedScore ≤ a.combinedScore`. -/
def combinedGe (a b : CombinedResult) : Prop :=
  b.combinedScore ≤ a.combinedScore

instance : DecidableRel combinedGe :=
  fun a b => inferInstanceAs (Decidable (b.combinedScore ≤ a.combinedScore))

instance : IsTotal CombinedResult combinedGe :=
  ⟨fun a b => le_total b.combinedScore a.combinedScore⟩

instance : IsTrans CombinedResult combinedGe :=
  ⟨fun _ _ _ hab hbc => le_trans hbc hab⟩

/-- The stable descending sort performed by
`.sort((a, b) => b.combinedScore - a.combinedScore)` on Node 18, where
`Array.prototype.sort` is stable. -/
def sortByCombinedDesc (l : List CombinedResult) : List CombinedResult :=
  List.insertionSort combinedGe l

/-- The tail of `hybridSearch` (`src/unnamed/part_005` lines 205-209):
`.filter(r => r.combinedScore >= threshold).sort((a, b) => b.combinedScore -
a.combinedScore).slice(0, limit)` applied to the merged candidates. -/
def hybridRankPipeline (combined : List CombinedResult) (threshold : ℚ) (limit : Nat) :
    List CombinedResult :=
  (sortByCombinedDesc (combined.filter (fun r => threshold ≤ r.combinedScore))).take limit

/-- The options destructured at the top of `hybridSearch`
(`src/unnamed/part_005` lines 183-188). -/
structure HybridOptions where
  limit : Nat
  textWeight : ℚ
  vectorWeight : ℚ
  threshold : ℚ
deriving DecidableEq

/-- The defaults of `hybridSearch`: `limit = 20`, `textWeight = 0.3`,
`vectorWeight = 0.7`, `threshold = 0.5`. -/
def defaultHybridOptions : HybridOptions :=
  ⟨20, 3/10, 7/10, 1/2⟩

/-- `hybridSearch` (`src/unnamed/part_005` lines 182-209).  `textSearch` and
`vectorSearch` are storage-backed siblings invoked by the method; they are
modelled as oracle functions of the arguments the code passes them:
`textSearch(query, userId, { limit: limit * 2 })` and
`vectorSearch(query, userId, { limit: limit * 2, threshold: 0.3 })`.  The query
and userId are fixed throughout one call, so they are folded into the oracles. -/
def hybridSearchResults (textSearch : Nat → List TextHit)
    (vectorSearch : Nat → ℚ → List VecHit) (opts : HybridOptions) :
    List CombinedResult :=
  let textResults := textSearch (opts.limit * 2)
  let vectorResults := vectorSearch (opts.limit * 2) (3/10)
  hybridRankPipeline
    (combineSearchResults textResults vectorResults opts.textWeight opts.vectorWeight)
    opts.threshold opts.limit

/-- The error the hybrid route raises when the weights fail validation
(`src/backend/routes/search.js` line 299, code `INVALID_WEIGHTS`). -/
inductive SearchRouteError where
  | invalidWeights
deriving DecidableEq

/-- The weight validation of the hybrid route (`src/backend/routes/search.js`
lines 297-300): `if (Math.abs(textWeight + vectorWeight - 1) > 0.001) throw`. -/
def validateHybridWeights (textWeight vectorWeight : ℚ) : Except SearchRouteError Unit :=
  if |textWeight + vectorWeight - 1| > 1/1000 then .error .invalidWeights else .ok ()

/-- The ordering the C2 claim describes: descending `combinedScore`, ties broken
by descending `similarity` (vectorScore), remaining ties stable.  Stated from
the claim's words, for comparison against the code's `sortByCombinedDesc`. -/
def claimedGeC2 (a b : CombinedResult) : Prop :=
  b.combinedScore < a.combinedScore
    ∨ (b.combinedScore = a.combinedScore ∧ b.similarity ≤ a.similarity)

instance : DecidableRel claimedGeC2 := fun a b =>
  inferInstanceAs (Decidable (b.combinedScore < a.combinedScore
    ∨ (b.combinedScore = a.combinedScore ∧ b.similarity ≤ a.similarity)))

/-- The hybrid pipeline as the C2 claim states it: same filter and truncation,
but sorted with the claimed vectorScore tie-break. -/
def claimedPipelineC2 (combined : List CombinedResult) (threshold : ℚ) (limit : Nat) :
    List CombinedResult :=
  ((combined.filter (fun r => threshold ≤ r.combinedScore)).insertionSort claimedGeC2).take limit

/-- Exceptions `calculateCosineSimilarity` and `findSimilarVectors`
(`src/src/services/embeddingService.js`) can throw: the explicit
`Error('Vectors must have the same dimension')`, and the implicit `TypeError`
raised by reading `.length` of an absent (`undefined`/`null`) candidate vector. -/
inductive VectorError where
  | dimensionMismatch
  | missingVector
deriving DecidableEq

/-- The dot-product loop of `calculateCosineSimilarity`
(`src/src/services/embeddingService.js` lines 172-176 accumulate
`dotProduct += a[i] * b[i]`); the loop pairs entries positionally. -/
def dotProduct : List ℝ → List ℝ → ℝ
  | a :: as, b :: bs => a * b + dotProduct as bs
  | _, _ => 0

/-- The accumulated `normA`/`normB` of the same loop before the square root:
the sum of squares of a vector's entries. -/
def sumSq (l : List ℝ) : ℝ :=
  dotProduct l l

/-- `calculateCosineSimilarity(a, b)` (`src/src/services/embeddingService.js`
lines 163-186): throw on length mismatch; return 0 when either magnitude
`Math.sqrt(norm)` is zero; otherwise `dotProduct / (normA * normB)`.
JS float64 arithmetic is modelled exactly over ℝ. -/
noncomputable def calculateCosineSimilarity (a b : List ℝ) : Except VectorError ℝ :=
  if a.length ≠ b.length then .error .dimensionMismatch
  else if Real.sqrt (sumSq a) = 0 ∨ Real.sqrt (sumSq b) = 0 then .ok 0
  else .ok (dotProduct a b / (Real.sqrt (sumSq a) * Real.sqrt (sumSq b)))

/-- One element of the `candidateVectors` array the callers build
(`src/unnamed/part_005` lines 115-125 and 320-330): the entry id and its stored
embedding vector, which JS leaves `undefined`/`null` when absent. The opaque
metadata the source spreads into the result is omitted. -/
structure VectorCandidate where
  id : Nat
  vector : Option (List ℝ)

/-- One scored result of `findSimilarVectors`: `{id, similarity}` (metadata
spread omitted). -/
structure SimilarityResult where
  id : Nat
  similarity : ℝ

/-- The body of the `.map` in `findSimilarVectors`
(`src/src/services/embeddingService.js` lines 198-202): score one candidate
against the query vector.  A candidate without a vector makes
`calculateCosineSimilarity` read `.length` of `undefined`, a `TypeError`. -/
noncomputable def scoreCandidate (queryVector : List ℝ) (candidate : VectorCandidate) :
    Except VectorError SimilarityResult :=
  match candidate.vector with
  | none => .error .missingVector
  | some v =>
    match calculateCosineSimilarity queryVector v with
    | .error e => .error e
    | .ok s => .ok ⟨candidate.id, s⟩

/-- The `.map` over the candidate list: JS `Array.prototype.map` runs left to
right and the first thrown exception aborts the whole call. -/
noncomputable def scoreCandidates (queryVector : List ℝ) :
    List VectorCandidate → Except VectorError (List SimilarityResult)
  | [] => .ok []
  | c :: cs =>
    match scoreCandidate queryVector c with
    | .error e => .error e
    | .ok r =>
      match scoreCandidates queryVector cs with
      | .error e => .error e
      | .ok rs => .ok (r :: rs)

/-- The ordering of `.sort((a, b) => b.similarity - a.similarity)` in
`findSimilarVectors`. -/
def simGe (a b : SimilarityResult) : Prop :=
  b.similarity ≤ a.similarity

noncomputable instance : DecidableRel simGe :=
  fun a b => inferInstanceAs (Decidable (b.similarity ≤ a.similarity))

/-- `findSimilarVectors(queryVector, candidateVectors, limit, threshold)`
(`src/src/services/embeddingService.js` lines 196-208): map every candidate
through cosine similarity, filter by `similarity >= threshold`, sort descending
(stable), truncate to `limit`. -/
noncomputable def findSimilarVectors (queryVector : List ℝ)
    (candidateVectors : List VectorCandidate) (limit : Nat) (threshold : ℝ) :
    Except VectorError (List SimilarityResult) :=
  match scoreCandidates queryVector candidateVectors with
  | .error e => .error e
  | .ok similarities =>
    .ok (((similarities.filter (fun r => threshold ≤ r.similarity)).insertionSort simGe).take limit)

/-- One stored entry as `findSimilarEntries` queries it: its id, owning user,
and optionally present embedding vector (`entry.embeddings.vector`). -/
structure StoredEntry where
  id : Nat
  userId : Nat
  vector : Option (List ℝ)

/-- Failures of `findSimilarEntries` (`src/unnamed/part_005` lines 298-366):
the explicit `Error('Reference entry not found or has no embeddings')`, or an
exception propagated out of `findSimilarVectors`. -/
inductive FindSimilarError where
  | referenceNotFound
  | vectorFailure (e : VectorError)
deriving DecidableEq

/-- `findSimilarEntries(entryId, userId, options)` (`src/unnamed/part_005`
lines 298-356): look up the reference entry (matching id, user, and a present
`embeddings.vector`), throw `referenceNotFound` when absent; collect every
other entry of the user with a present vector as candidates; delegate to
`findSimilarVectors`.  There is no emptiness check on the candidate list. -/
noncomputable def findSimilarEntries (store : List StoredEntry) (entryId userId : Nat)
    (limit : Nat) (threshold : ℝ) : Except FindSimilarError (List SimilarityResult) :=
  match (store.filter (fun e => e.id == entryId && e.userId == userId && e.vector.isSome)).head? with
  | none => .error .referenceNotFound
  | some referenceEntry =>
    match referenceEntry.vector with
    | none => .error .referenceNotFound
    | some refVector =>
      let candidateVectors :=
        (store.filter (fun e => e.userId == userId && e.id != entryId && e.vector.isSome)).map
          (fun e => VectorCandidate.mk e.id e.vector)
      match findSimilarVectors refVector candidateVectors limit threshold with
      | .error e => .error (.vectorFailure e)
      | .ok rs => .ok rs

/-- The data `generateEmbedding` returns (`src/src/services/embeddingService.js`
lines 125-130), without the model name: the vector, its length, and the
checksum computed FROM THE VECTOR by `calculateChecksum`. -/
structure EmbeddingData where
  vector : List ℚ
  dimension : Nat
  checksum : ℚ

/-- `generateLocalEmbedding` (`src/src/services/embeddingService.js` lines
78-100): the shipped code builds `new Array(384).fill(0).map(() => Math.random()
- 0.5)`.  The 384 successive `Math.random()` outputs are modelled as an explicit
stream `rng : Nat → ℚ` (each value lies in [0, 1), which no claim needs). -/
def generateLocalEmbedding (rng : Nat → ℚ) : List ℚ :=
  (List.range 384).map (fun i => rng i - 1/2)

/-- `calculateChecksum(vector)` (`src/src/services/embeddingService.js` lines
228-231): `Math.abs(vector.reduce((acc, val) => acc + val, 0))`, rendered as a
base-36 string truncated to 8 characters.  The numeric digest value is modelled;
the string rendering is a function of it, and the concrete values compared below
(0 versus 192) render as distinct strings. -/
def calculateChecksum (vector : List ℚ) : ℚ :=
  |vector.foldl (fun acc val => acc + val) 0|

/-- `generateEmbedding(text)` on the local path (`src/src/services/embeddingService.js`
lines 107-131 with `useLocalEmbeddings`): generate the (mock, random) vector and
record `checksum: this.calculateChecksum(vector)`.  The text is preprocessed but
never reaches the mock generator, so its content is modelled as an opaque token. -/
def generateEmbedding (text : Nat) (rng : Nat → ℚ) : EmbeddingData :=
  let vector := generateLocalEmbedding rng
  { vector := vector, dimension := vector.length, checksum := calculateChecksum vector }

/-- Failure of a Mongoose `entry.save()` whose embedding vector fails the schema
validator of `src/unnamed/part_001` lines 73-81. -/
inductive EntryUpdateError where
  | validationFailed
deriving DecidableEq

/-- A JS value as the schema validator of `src/unnamed/part_001` lines 73-81 can
receive it: the whole `embeddings.vector` array (what the function body, written
over `arr`, evidently expects) or one `Number` element of it (what Mongoose
actually passes, because the `validate` option sits inside the array's ELEMENT
descriptor `[{ type: Number, validate: ... }]` — the same in-bracket per-element
pattern the schema uses for `tags`' `maxlength`). -/
inductive ValidatorArg where
  | arrayVal (arr : List ℚ)
  | numberVal (x : ℚ)
deriving DecidableEq

/-- Reading `.length` in JS: an Array has its length, a Number has no such
property and yields `undefined` (modelled as `none`). -/
def jsLength : ValidatorArg → Option Nat
  | .arrayVal arr => some arr.length
  | .numberVal _ => none

/-- The validator function of the Entry schema (`src/unnamed/part_001` lines
76-78), exactly as written: `arr => arr.length === config.embeddingDimension`.
On a value without a `.length` the strict comparison `undefined === n` is false. -/
def embeddingVectorValidator (embeddingDimension : Nat) (arg : ValidatorArg) : Bool :=
  match jsLength arg with
  | some len => len == embeddingDimension
  | none => false

/-- How Mongoose applies that validator on save: the `validate` option is
attached to the array's element descriptor, so the function runs once per
`Number` element of `embeddings.vector`, and the document validates only when
every element passes.  (An empty array has no elements, so it passes vacuously.) -/
def vectorPassesSchemaValidation (embeddingDimension : Nat) (vector : List ℚ) : Bool :=
  vector.all (fun x => embeddingVectorValidator embeddingDimension (.numberVal x))

/-- A persisted entry as far as the dimension invariant is concerned: its id and
optionally present embedding vector. -/
structure EntryRecord where
  id : Nat
  vector : Option (List ℚ)
deriving DecidableEq

/-- The store write performed by `generateEntryEmbeddings`' `entry.save()`
(`src/unnamed/part_005` lines 27-38): set `entry.embeddings.vector` and persist.
Mongoose runs the schema validation of `src/unnamed/part_001` on save; failing
validation rejects the write and the store is unchanged.  A successful save
stores the vector exactly as given (no truncation or padding). -/
def saveEntryEmbedding (embeddingDimension : Nat) (store : List EntryRecord)
    (entryId : Nat) (vector : List ℚ) : Except EntryUpdateError (List EntryRecord) :=
  if vectorPassesSchemaValidation embeddingDimension vector then
    .ok ((store.filter (fun e => e.id != entryId)) ++ [⟨entryId, some vector⟩])
  else
    .error .validationFailed

/-- Modelled from the spec: the repository has no EmbeddingLifecycleCoordinator
and no in-flight checksum set (its nearest code, `generateBatchEmbeddings` in
`src/unnamed/part_005` lines 62-79, is a plain sequential loop).  This is the
coordinator state of spec section 4.4: the set of content checksums with an
in-flight embedding computation, modelled as a duplicate-free list. -/
structure CoordinatorState where
  inFlight : List Nat

/-- Modelled from the spec: the decision `beginEmbeddingComputation` returns
(spec section 6): dispatch a fresh computation, or join the pending one. -/
structure BeginDecision where
  dispatch : Bool
  joinExisting : Bool
deriving DecidableEq

/-- Modelled from the spec: `beginEmbeddingComputation(checksum)` (spec sections
4.4 and 6).  An atomic check-and-set on the in-flight set: a checksum already
pending joins the existing computation; otherwise it is inserted and dispatched. -/
def beginEmbeddingComputation (s : CoordinatorState) (checksum : Nat) :
    BeginDecision × CoordinatorState :=
  if checksum ∈ s.inFlight then ({ dispatch := false, joinExisting := true }, s)
  else ({ dispatch := true, joinExisting := false }, ⟨checksum :: s.inFlight⟩)

/-- Modelled from the spec: completion (success or failure) removes the checksum
from the in-flight set (spec section 4.4). -/
def completeEmbeddingComputation (s : CoordinatorState) (checksum : Nat) :
    CoordinatorState :=
  ⟨s.inFlight.filter (fun c => c != checksum)⟩

/-- Modelled from the spec: the coordinator states reachable from an empty
in-flight set by interleavings of begin and complete steps. -/
inductive CoordinatorReachable : CoordinatorState → Prop where
  | init : CoordinatorReachable ⟨[]⟩
  | beginStep {s : CoordinatorState} (cs : Nat) :
      CoordinatorReachable s → CoordinatorReachable (beginEmbeddingComputation s cs).2
  | completeStep {s : CoordinatorState} (cs : Nat) :
      CoordinatorReachable s → CoordinatorReachable (completeEmbeddingComputation s cs)

/-! ## Lemmas about the merge map (`combineSearchResults`) -/

theorem containsId_iff (m : List CombinedResult) (i : Nat) :
    containsId m i = true ↔ ∃ r ∈ m, r.id = i := by
  simp [containsId]

theorem mem_insertTextHit {tw : ℚ} {m : List CombinedResult} {t : TextHit}
    {r : CombinedResult} (h : r ∈ insertTextHit tw m t) :
    r ∈ m ∨ r = ⟨t.id, t.textScore, 0, t.textScore * tw⟩ := by
  unfold insertTextHit at h
  split at h
  · rcases List.mem_map.1 h with ⟨r0, hr0, hfr⟩
    by_cases hid : r0.id = t.id
    · right
      rw [← hfr]
      simp [hid]
    · left
      rw [if_neg (by simpa using hid)] at hfr
      exact hfr ▸ hr0
  · rcases List.mem_append.1 h with h0 | h0
    · exact Or.inl h0
    · exact Or.inr (List.mem_singleton.1 h0)

theorem mem_insertVecHit {tw vw : ℚ} {m : List CombinedResult} {v : VecHit}
    {r : CombinedResult} (h : r ∈ insertVecHit tw vw m v) :
    (∃ r0 ∈ m, r0.id = v.id ∧
        r = ⟨r0.id, r0.textScore, v.similarity, r0.textScore * tw + v.similarity * vw⟩)
      ∨ r ∈ m ∨ r = ⟨v.id, 0, v.similarity, v.similarity * vw⟩ := by
  unfold insertVecHit at h
  split at h
  · rcases List.mem_map.1 h with ⟨r0, hr0, hfr⟩
    by_cases hid : r0.id = v.id
    · refine Or.inl ⟨r0, hr0, hid, ?_⟩
      rw [← hfr]
      simp [hid]
    · refine Or.inr (Or.inl ?_)
      rw [if_neg (by simpa using hid)] at hfr
      exact hfr ▸ hr0
  · rcases List.mem_append.1 h with h0 | h0
    · exact Or.inr (Or.inl h0)
    · exact Or.inr (Or.inr (List.mem_singleton.1 h0))

theorem hasId_insertTextHit (tw : ℚ) (m : List CombinedResult) (t : TextHit) (i : Nat) :
    (∃ r ∈ insertTextHit tw m t, r.id = i) ↔ (∃ r ∈ m, r.id = i) ∨ t.id = i := by
  unfold insertTextHit
  split
  · rename_i hc
    rw [containsId_iff] at hc
    constructor
    · rintro ⟨r, hr, rfl⟩
      rcases List.mem_map.1 hr with ⟨r0, hr0, hfr⟩
      by_cases hid : r0.id = t.id
      · rw [← hfr]
        simp [hid]
      · rw [if_neg (by simpa using hid)] at hfr
        exact Or.inl ⟨r0, hr0, by rw [hfr]⟩
    · rintro (⟨r, hr, rfl⟩ | hti)
      · by_cases hid : r.id = t.id
        · refine ⟨_, List.mem_map.2 ⟨r, hr, rfl⟩, ?_⟩
          simp [hid]
        · refine ⟨_, List.mem_map.2 ⟨r, hr, rfl⟩, ?_⟩
          simp [hid]
      · rcases hc with ⟨r, hr, hrid⟩
        refine ⟨_, List.mem_map.2 ⟨r, hr, rfl⟩, ?_⟩
        simp [hrid, hti]
  · constructor
    · rintro ⟨r, hr, rfl⟩
      rcases List.mem_append.1 hr with h0 | h0
      · exact Or.inl ⟨r, h0, rfl⟩
      · rw [List.mem_singleton.1 h0]
        exact Or.inr rfl
    · rintro (⟨r, hr, rfl⟩ | hti)
      · exact ⟨r, List.mem_append_left _ hr, rfl⟩
      · exact ⟨_, List.mem_append_right _ (List.mem_singleton.2 rfl), hti⟩

theorem hasId_insertVecHit (tw vw : ℚ) (m : List CombinedResult) (v : VecHit) (i : Nat) :
    (∃ r ∈ insertVecHit tw vw m v, r.id = i) ↔ (∃ r ∈ m, r.id = i) ∨ v.id = i := by
  unfold insertVecHit
  split
  · rename_i hc
    rw [containsId_iff] at hc
    constructor
    · rintro ⟨r, hr, rfl⟩
      rcases List.mem_map.1 hr with ⟨r0, hr0, hfr⟩
      by_cases hid : r0.id = v.id
      · rw [← hfr]
        simp [hid]
      · rw [if_neg (by simpa using hid)] at hfr
        exact Or.inl ⟨r0, hr0, by rw [hfr]⟩
    · rintro (⟨r, hr, rfl⟩ | hvi)
      · by_cases hid : r.id = v.id
        · exact ⟨_, List.mem_map.2 ⟨r, hr, rfl⟩, by simp [hid]⟩
        · exact ⟨_, List.mem_map.2 ⟨r, hr, rfl⟩, by simp [hid]⟩
      · rcases hc with ⟨r, hr, hrid⟩
        refine ⟨_, List.mem_map.2 ⟨r, hr, rfl⟩, ?_⟩
        simp [hrid, hvi]
  · constructor
    · rintro ⟨r, hr, rfl⟩
      rcases List.mem_append.1 hr with h0 | h0
      · exact Or.inl ⟨r, h0, rfl⟩
      · rw [List.mem_singleton.1 h0]
        exact Or.inr rfl
    · rintro (⟨r, hr, rfl⟩ | hvi)
      · exact ⟨r, List.mem_append_left _ hr, rfl⟩
      · exact ⟨_, List.mem_append_right _ (List.mem_singleton.2 rfl), hvi⟩

theorem hasId_foldl_text (tw : ℚ) (txt : List TextHit) (m : List CombinedResult) (i : Nat) :
    (∃ r ∈ txt.foldl (insertTextHit tw) m, r.id = i)
      ↔ (∃ r ∈ m, r.id = i) ∨ ∃ t ∈ txt, t.id = i := by
  induction txt generalizing m with
  | nil => simp
  | cons t ts ih =>
    rw [List.foldl_cons, ih, hasId_insertTextHit]
    simp [or_assoc]

theorem hasId_foldl_vec (tw vw : ℚ) (vec : List VecHit) (m : List CombinedResult) (i : Nat) :
    (∃ r ∈ vec.foldl (insertVecHit tw vw) m, r.id = i)
      ↔ (∃ r ∈ m, r.id = i) ∨ ∃ v ∈ vec, v.id = i := by
  induction vec generalizing m with
  | nil => simp
  | cons v vs ih =>
    rw [List.foldl_cons, ih, hasId_insertVecHit]
    simp [or_assoc]

theorem idKeep_insertTextHit (tw : ℚ) (m : List CombinedResult) (t : TextHit)
    (r : CombinedResult) :
    ((fun r => if r.id == t.id then
        (⟨t.id, t.textScore, 0, t.textScore * tw⟩ : CombinedResult) else r) r).id = r.id := by
  by_cases hid : r.id = t.id <;> simp [hid]

theorem pairwise_insertTextHit {tw : ℚ} {m : List CombinedResult} (t : TextHit)
    (h : m.Pairwise (fun a b => a.id ≠ b.id)) :
    (insertTextHit tw m t).Pairwise (fun a b => a.id ≠ b.id) := by
  unfold insertTextHit
  split
  · refine h.map _ ?_
    intro a b hab
    rw [idKeep_insertTextHit tw m t a, idKeep_insertTextHit tw m t b]
    exact hab
  · rename_i hc
    rw [List.pairwise_append]
    refine ⟨h, List.pairwise_singleton _ _, ?_⟩
    intro a ha b hb
    rw [List.mem_singleton.1 hb]
    intro hab
    exact hc ((containsId_iff m t.id).2 ⟨a, ha, hab⟩)

theorem idKeep_insertVecHit (tw vw : ℚ) (v : VecHit) (r : CombinedResult) :
    ((fun r => if r.id == v.id then
        (⟨r.id, r.textScore, v.similarity,
          r.textScore * tw + v.similarity * vw⟩ : CombinedResult) else r) r).id = r.id := by
  by_cases hid : r.id = v.id <;> simp [hid]

theorem pairwise_insertVecHit {tw vw : ℚ} {m : List CombinedResult} (v : VecHit)
    (h : m.Pairwise (fun a b => a.id ≠ b.id)) :
    (insertVecHit tw vw m v).Pairwise (fun a b => a.id ≠ b.id) := by
  unfold insertVecHit
  split
  · refine h.map _ ?_
    intro a b hab
    rw [idKeep_insertVecHit tw vw v a, idKeep_insertVecHit tw vw v b]
    exact hab
  · rename_i hc
    rw [List.pairwise_append]
    refine ⟨h, List.pairwise_singleton _ _, ?_⟩
    intro a ha b hb
    rw [List.mem_singleton.1 hb]
    intro hab
    exact hc ((containsId_iff m v.id).2 ⟨a, ha, hab⟩)

theorem pairwise_foldl_text (tw : ℚ) (txt : List TextHit) (m : List CombinedResult)
    (h : m.Pairwise (fun a b => a.id ≠ b.id)) :
    (txt.foldl (insertTextHit tw) m).Pairwise (fun a b => a.id ≠ b.id) := by
  induction txt generalizing m with
  | nil => exact h
  | cons t ts ih => exact ih _ (pairwise_insertTextHit t h)

theorem pairwise_foldl_vec (tw vw : ℚ) (vec : List VecHit) (m : List CombinedResult)
    (h : m.Pairwise (fun a b => a.id ≠ b.id)) :
    (vec.foldl (insertVecHit tw vw) m).Pairwise (fun a b => a.id ≠ b.id) := by
  induction vec generalizing m with
  | nil => exact h
  | cons v vs ih => exact ih _ (pairwise_insertVecHit v h)

theorem phase1_inv (tw : ℚ) (txt : List TextHit) (m : List CombinedResult)
    (h : ∀ r ∈ m, r.similarity = 0 ∧ r.combinedScore = r.textScore * tw) :
    ∀ r ∈ txt.foldl (insertTextHit tw) m,
      r.similarity = 0 ∧ r.combinedScore = r.textScore * tw := by
  induction txt generalizing m with
  | nil => exact h
  | cons t ts ih =>
    refine ih _ ?_
    intro r hr
    rcases mem_insertTextHit hr with h0 | rfl
    · exact h _ h0
    · exact ⟨rfl, rfl⟩

theorem phase1_textScore_origin (tw : ℚ) (txt : List TextHit) (m : List CombinedResult)
    (S : Nat → Prop) (hm : ∀ r ∈ m, r.textScore = 0 ∨ S r.id) (htxt : ∀ t ∈ txt, S t.id) :
    ∀ r ∈ txt.foldl (insertTextHit tw) m, r.textScore = 0 ∨ S r.id := by
  induction txt generalizing m with
  | nil => exact hm
  | cons t ts ih =>
    refine ih _ ?_ (fun t0 ht0 => htxt t0 (List.mem_cons_of_mem _ ht0))
    intro r hr
    rcases mem_insertTextHit hr with h0 | rfl
    · exact hm _ h0
    · exact Or.inr (htxt t (List.mem_cons_self _ _))

theorem phase2_combined_formula (tw vw : ℚ) (vec : List VecHit) (m : List CombinedResult)
    (h : ∀ r ∈ m, r.combinedScore = r.textScore * tw + r.similarity * vw) :
    ∀ r ∈ vec.foldl (insertVecHit tw vw) m,
      r.combinedScore = r.textScore * tw + r.similarity * vw := by
  induction vec generalizing m with
  | nil => exact h
  | cons v vs ih =>
    refine ih _ ?_
    intro r hr
    rcases mem_insertVecHit hr with ⟨r0, _, _, rfl⟩ | h0 | rfl
    · rfl
    · exact h _ h0
    · simp

theorem phase2_textScore_origin (tw vw : ℚ) (vec : List VecHit) (m : List CombinedResult)
    (S : Nat → Prop) (hm : ∀ r ∈ m, r.textScore = 0 ∨ S r.id) :
    ∀ r ∈ vec.foldl (insertVecHit tw vw) m, r.textScore = 0 ∨ S r.id := by
  induction vec generalizing m with
  | nil => exact hm
  | cons v vs ih =>
    refine ih _ ?_
    intro r hr
    rcases mem_insertVecHit hr with ⟨r0, hr0, _, rfl⟩ | h0 | rfl
    · exact hm r0 hr0
    · exact hm _ h0
    · exact Or.inl rfl

theorem phase2_similarity_origin (tw vw : ℚ) (vec : List VecHit) (m : List CombinedResult)
    (S : Nat → Prop) (hm : ∀ r ∈ m, r.similarity = 0 ∨ S r.id)
    (hvec : ∀ v ∈ vec, S v.id) :
    ∀ r ∈ vec.foldl (insertVecHit tw vw) m, r.similarity = 0 ∨ S r.id := by
  induction vec generalizing m with
  | nil => exact hm
  | cons v vs ih =>
    refine ih _ ?_ (fun v0 hv0 => hvec v0 (List.mem_cons_of_mem _ hv0))
    intro r hr
    rcases mem_insertVecHit hr with ⟨r0, _, hid, rfl⟩ | h0 | rfl
    · exact Or.inr (by simpa [hid] using hvec v (List.mem_cons_self _ _))
    · exact hm _ h0
    · exact Or.inr (hvec v (List.mem_cons_self _ _))

/-- C1: the hybrid merge is a full outer join on the id, one result per distinct
id of the union of the two hit lists; a lexical-only id keeps vectorScore
(`similarity`) 0, a vector-only id keeps lexicalScore (`textScore`) 0, and every
result's `combinedScore` is `textScore * textWeight + similarity * vectorWeight`. -/
theorem combineSearchResults_full_outer_join (textResults : List TextHit)
    (vectorResults : List VecHit) (textWeight vectorWeight : ℚ) :
    (combineSearchResults textResults vectorResults textWeight vectorWeight).Pairwise
        (fun a b => a.id ≠ b.id)
    ∧ (∀ i : Nat,
        (∃ r ∈ combineSearchResults textResults vectorResults textWeight vectorWeight, r.id = i)
          ↔ (∃ t ∈ textResults, t.id = i) ∨ ∃ v ∈ vectorResults, v.id = i)
    ∧ (∀ r ∈ combineSearchResults textResults vectorResults textWeight vectorWeight,
        (∀ v ∈ vectorResults, v.id ≠ r.id) → r.similarity = 0)
    ∧ (∀ r ∈ combineSearchResults textResults vectorResults textWeight vectorWeight,
        (∀ t ∈ textResults, t.id ≠ r.id) → r.textScore = 0)
    ∧ (∀ r ∈ combineSearchResults textResults vectorResults textWeight vectorWeight,
        r.combinedScore = r.textScore * textWeight + r.similarity * vectorWeight) := by
  unfold combineSearchResults
  refine ⟨?_, ?_, ?_, ?_, ?_⟩
  · exact pairwise_foldl_vec _ _ _ _ (pairwise_foldl_text _ _ _ List.Pairwise.nil)
  · intro i
    rw [hasId_foldl_vec, hasId_foldl_text]
    simp
  · intro r hr hnone
    rcases phase2_similarity_origin textWeight vectorWeight vectorResults _
        (fun i => ∃ v ∈ vectorResults, v.id = i)
        (fun r0 hr0 => Or.inl (phase1_inv textWeight textResults [] (by simp) r0 hr0).1)
        (fun v hv => ⟨v, hv, rfl⟩) r hr with h0 | ⟨v, hv, hvid⟩
    · exact h0
    · exact absurd hvid (hnone v hv)
  · intro r hr hnone
    rcases phase2_textScore_origin textWeight vectorWeight vectorResults _
        (fun i => ∃ t ∈ textResults, t.id = i)
        (phase1_textScore_origin textWeight textResults []
          (fun i => ∃ t ∈ textResults, t.id = i) (by simp)
          (fun t ht => ⟨t, ht, rfl⟩)) r hr with h0 | ⟨t, ht, htid⟩
    · exact h0
    · exact absurd htid (hnone t ht)
  · refine phase2_combined_formula textWeight vectorWeight vectorResults _ ?_
    intro r hr
    rcases phase1_inv textWeight textResults [] (by simp) r hr with ⟨hs, hc⟩
    rw [hs, hc]
    ring

/-! ## Lemmas about the hybrid sort (stability of the stable descending sort) -/

theorem filter_orderedInsert_combined_eq (r : CombinedResult) (l : List CombinedResult) :
    (l.orderedInsert combinedGe r).filter (fun x => x.combinedScore == r.combinedScore)
      = r :: l.filter (fun x => x.combinedScore == r.combinedScore) := by
  induction l with
  | nil => simp [List.orderedInsert]
  | cons x xs ih =>
    rw [List.orderedInsert]
    split
    · rw [List.filter_cons, if_pos (by simp)]
    · rename_i h
      have hx : ¬(x.combinedScore == r.combinedScore) = true := by
        simp only [beq_iff_eq]
        intro heq
        exact h (le_of_eq heq)
      rw [List.filter_cons, if_neg hx, ih, List.filter_cons, if_neg hx]

theorem filter_orderedInsert_combined_ne (r : CombinedResult) (l : List CombinedResult)
    (q : ℚ) (hq : r.combinedScore ≠ q) :
    (l.orderedInsert combinedGe r).filter (fun x => x.combinedScore == q)
      = l.filter (fun x => x.combinedScore == q) := by
  induction l with
  | nil => simp [List.orderedInsert, hq]
  | cons x xs ih =>
    rw [List.orderedInsert]
    split
    · rw [List.filter_cons, if_neg (by simpa using hq)]
    · by_cases hx : x.combinedScore = q
      · rw [List.filter_cons, if_pos (by simpa using hx), ih,
          List.filter_cons, if_pos (by simpa using hx)]
      · rw [List.filter_cons, if_neg (by simpa using hx), ih,
          List.filter_cons, if_neg (by simpa using hx)]

theorem filter_sortByCombinedDesc (l : List CombinedResult) (q : ℚ) :
    (sortByCombinedDesc l).filter (fun x => x.combinedScore == q)
      = l.filter (fun x => x.combinedScore == q) := by
  induction l with
  | nil => rfl
  | cons r rs ih =>
    rw [sortByCombinedDesc, List.insertionSort]
    by_cases hq : r.combinedScore = q
    · subst hq
      rw [filter_orderedInsert_combined_eq, List.filter_cons, if_pos (by simp)]
      rw [sortByCombinedDesc] at ih
      rw [ih]
    · rw [filter_orderedInsert_combined_ne r _ q hq, List.filter_cons, if_neg (by simpa using hq)]
      rw [sortByCombinedDesc] at ih
      rw [ih]

/-- C2 counterexample: merging lexical hits `{1 ↦ 0.8}` and vector hits
`{2 ↦ 0.8}` under weights (0.5, 0.5) makes both candidates tie at combinedScore
0.4; the code's sort compares only `combinedScore` and is stable, keeping the
lexical-first order [1, 2], while the claimed vectorScore tie-break demands
[2, 1] (id 2 has vectorScore 0.8 against id 1's 0). -/
theorem hybridRankPipeline_tiebreak_counterexample :
    hybridRankPipeline (combineSearchResults [⟨1, 8/10⟩] [⟨2, 8/10⟩] (1/2) (1/2)) 0 10
      ≠ claimedPipelineC2 (combineSearchResults [⟨1, 8/10⟩] [⟨2, 8/10⟩] (1/2) (1/2)) 0 10 := by
  norm_num [combineSearchResults, insertTextHit, insertVecHit, containsId,
    hybridRankPipeline, claimedPipelineC2, sortByCombinedDesc, List.insertionSort,
    List.orderedInsert, combinedGe, claimedGeC2]

/-- C2 (amended): the hybrid pipeline output is the merged candidates with
combinedScore at or above the threshold, sorted descending by combinedScore
ONLY, ties kept in the merged list's original order (the sort is stable; there
is no vectorScore tie-break), truncated to the first `limit` elements.  The
permutation, sortedness and score-class-preservation conjuncts pin the sorted
list uniquely. -/
theorem hybridRankPipeline_stable_sort_spec (combined : List CombinedResult)
    (threshold : ℚ) (limit : Nat) :
    hybridRankPipeline combined threshold limit
        = (sortByCombinedDesc (combined.filter (fun r => threshold ≤ r.combinedScore))).take limit
    ∧ List.Perm (sortByCombinedDesc (combined.filter (fun r => threshold ≤ r.combinedScore)))
        (combined.filter (fun r => threshold ≤ r.combinedScore))
    ∧ (sortByCombinedDesc (combined.filter (fun r => threshold ≤ r.combinedScore))).Sorted
        combinedGe
    ∧ ∀ q : ℚ,
        (sortByCombinedDesc (combined.filter (fun r => threshold ≤ r.combinedScore))).filter
            (fun x => x.combinedScore == q)
          = (combined.filter (fun r => threshold ≤ r.combinedScore)).filter
              (fun x => x.combinedScore == q) :=
  ⟨rfl, List.perm_insertionSort _ _, List.sorted_insertionSort _ _,
    fun q => filter_sortByCombinedDesc _ q⟩

/-- C10: `hybridSearch` requests `limit * 2` results from the text source and
`limit * 2` results at the FIXED internal similarity threshold 0.3 from the
vector source; the caller-supplied threshold (default 0.5 via
`defaultHybridOptions`) is applied only to the final `combinedScore` filter, and
every vector hit fetched at the internal 0.3 threshold enters the merged
candidate set regardless of the caller threshold. -/
theorem hybridSearch_internal_threshold (textSearch : Nat → List TextHit)
    (vectorSearch : Nat → ℚ → List VecHit) (opts : HybridOptions) :
    hybridSearchResults textSearch vectorSearch opts
        = (sortByCombinedDesc
            ((combineSearchResults (textSearch (opts.limit * 2))
                (vectorSearch (opts.limit * 2) (3/10))
                opts.textWeight opts.vectorWeight).filter
              (fun r => opts.threshold ≤ r.combinedScore))).take opts.limit
    ∧ defaultHybridOptions.threshold = 1/2
    ∧ ∀ v ∈ vectorSearch (opts.limit * 2) (3/10),
        ∃ r ∈ combineSearchResults (textSearch (opts.limit * 2))
            (vectorSearch (opts.limit * 2) (3/10)) opts.textWeight opts.vectorWeight,
          r.id = v.id := by
  refine ⟨rfl, rfl, ?_⟩
  intro v hv
  have h := (hasId_foldl_vec opts.textWeight opts.vectorWeight
      (vectorSearch (opts.limit * 2) (3/10))
      ((textSearch (opts.limit * 2)).foldl (insertTextHit opts.textWeight) []) v.id).2
      (Or.inr ⟨v, hv, rfl⟩)
  exact h

/-- C5: the hybrid route rejects the call with `INVALID_WEIGHTS` exactly when
`|textWeight + vectorWeight - 1| > 0.001`; in particular it rejects
(0.4, 0.4) and accepts (0.3, 0.7). -/
theorem hybridWeights_invalid_iff (textWeight vectorWeight : ℚ)
    (htw : 0 ≤ textWeight ∧ textWeight ≤ 1) (hvw : 0 ≤ vectorWeight ∧ vectorWeight ≤ 1) :
    (validateHybridWeights textWeight vectorWeight = .error .invalidWeights
        ↔ |textWeight + vectorWeight - 1| > 1/1000)
    ∧ validateHybridWeights (4/10) (4/10) = .error .invalidWeights
    ∧ validateHybridWeights (3/10) (7/10) = .ok () := by
  refine ⟨?_, ?_, by norm_num [validateHybridWeights]⟩
  · unfold validateHybridWeights
    split
    · rename_i h
      exact ⟨fun _ => h, fun _ => rfl⟩
    · rename_i h
      exact ⟨fun hcontra => absurd hcontra (by simp), fun habs => absurd habs h⟩
  · unfold validateHybridWeights
    split_ifs with h
    · rfl
    · refine absurd ?_ h
      rw [show (4:ℚ)/10 + 4/10 - 1 = -(1/5) by norm_num, abs_neg,
        abs_of_pos (by norm_num)]
      norm_num

/-- Witness for C5 at textWeight 0.3, vectorWeight 0.7: both weights lie in
[0, 1] and the call is accepted. -/
theorem hybridWeights_invalid_iff_witness :
    validateHybridWeights (3/10) (7/10) = .ok () :=
  (hybridWeights_invalid_iff (3/10) (7/10) ⟨by norm_num, by norm_num⟩
    ⟨by norm_num, by norm_num⟩).2.2

/-! ## Lemmas about the cosine similarity (`calculateCosineSimilarity`) -/

theorem sumSq_nil : sumSq [] = 0 := rfl

theorem sumSq_cons (x : ℝ) (xs : List ℝ) : sumSq (x :: xs) = x * x + sumSq xs := rfl

theorem sumSq_nonneg (l : List ℝ) : 0 ≤ sumSq l := by
  induction l with
  | nil => exact le_refl 0
  | cons x xs ih =>
    rw [sumSq_cons]
    exact add_nonneg (mul_self_nonneg x) ih

theorem cs_step (x y A B D : ℝ) (hA : 0 ≤ A) (hB : 0 ≤ B) (hD : D ^ 2 ≤ A * B) :
    (x * y + D) ^ 2 ≤ (x * x + A) * (y * y + B) := by
  rcases eq_or_lt_of_le hB with hB0 | hBpos
  · have hD0 : D = 0 := by nlinarith [sq_nonneg D]
    subst hD0
    nlinarith [mul_nonneg hA (mul_self_nonneg y)]
  · nlinarith [sq_nonneg (x * B - y * D), mul_nonneg (mul_self_nonneg y) (sub_nonneg.2 hD),
      mul_nonneg hB (sub_nonneg.2 hD)]

theorem cauchy_schwarz_list (a b : List ℝ) : (dotProduct a b) ^ 2 ≤ sumSq a * sumSq b := by
  induction a generalizing b with
  | nil =>
    have h : dotProduct [] b = 0 := by cases b <;> rfl
    rw [h, sumSq_nil, zero_mul]
    norm_num
  | cons x xs ih =>
    cases b with
    | nil =>
      have h : dotProduct (x :: xs) [] = 0 := rfl
      rw [h, sumSq_nil, mul_zero]
      norm_num
    | cons y ys =>
      have h : dotProduct (x :: xs) (y :: ys) = x * y + dotProduct xs ys := rfl
      rw [h, sumSq_cons, sumSq_cons]
      exact cs_step x y (sumSq xs) (sumSq ys) (dotProduct xs ys)
        (sumSq_nonneg xs) (sumSq_nonneg ys) (ih ys)

theorem cosine_dimension_mismatch {a b : List ℝ} (h : a.length ≠ b.length) :
    calculateCosineSimilarity a b = .error .dimensionMismatch := by
  unfold calculateCosineSimilarity
  rw [if_pos h]

theorem cosine_zero_magnitude {a b : List ℝ} (hlen : a.length = b.length)
    (h : sumSq a = 0 ∨ sumSq b = 0) :
    calculateCosineSimilarity a b = .ok 0 := by
  unfold calculateCosineSimilarity
  rw [if_neg (by simp [hlen])]
  rw [if_pos]
  rcases h with h | h
  · exact Or.inl (by rw [h, Real.sqrt_zero])
  · exact Or.inr (by rw [h, Real.sqrt_zero])

theorem cosine_bounds {a b : List ℝ} {s : ℝ} (h : calculateCosineSimilarity a b = .ok s) :
    -1 ≤ s ∧ s ≤ 1 := by
  unfold calculateCosineSimilarity at h
  split at h
  · exact absurd h (by simp)
  · split at h
    · rw [Except.ok.injEq] at h
      constructor <;> rw [← h] <;> norm_num
    · rename_i hlen hz
      push_neg at hz
      rw [Except.ok.injEq] at h
      have hA := sumSq_nonneg a
      have hB := sumSq_nonneg b
      have hApos : 0 < Real.sqrt (sumSq a) :=
        lt_of_le_of_ne (Real.sqrt_nonneg _) (Ne.symm hz.1)
      have hBpos : 0 < Real.sqrt (sumSq b) :=
        lt_of_le_of_ne (Real.sqrt_nonneg _) (Ne.symm hz.2)
      have hdenom : 0 < Real.sqrt (sumSq a) * Real.sqrt (sumSq b) := mul_pos hApos hBpos
      have habs : |dotProduct a b| ≤ Real.sqrt (sumSq a) * Real.sqrt (sumSq b) := by
        rw [← Real.sqrt_sq_eq_abs]
        calc Real.sqrt ((dotProduct a b) ^ 2) ≤ Real.sqrt (sumSq a * sumSq b) :=
              Real.sqrt_le_sqrt (cauchy_schwarz_list a b)
          _ = Real.sqrt (sumSq a) * Real.sqrt (sumSq b) := Real.sqrt_mul hA _
      have hs : |s| ≤ 1 := by
        rw [← h, abs_div, abs_of_pos hdenom, div_le_one hdenom]
        exact habs
      exact abs_le.1 hs

theorem cosine_self {a : List ℝ} (h : sumSq a ≠ 0) :
    calculateCosineSimilarity a a = .ok 1 := by
  unfold calculateCosineSimilarity
  rw [if_neg (by simp)]
  have hApos : 0 < sumSq a := lt_of_le_of_ne (sumSq_nonneg a) (Ne.symm h)
  have hs : Real.sqrt (sumSq a) ≠ 0 := by
    rw [Ne, Real.sqrt_eq_zero']
    exact fun hc => absurd hc (not_le.2 hApos)
  rw [if_neg (by simp [hs])]
  rw [Except.ok.injEq]
  rw [Real.mul_self_sqrt (sumSq_nonneg a)]
  exact div_self h

theorem cosine_orthogonal {a b : List ℝ} (hlen : a.length = b.length)
    (hdot : dotProduct a b = 0) :
    calculateCosineSimilarity a b = .ok 0 := by
  unfold calculateCosineSimilarity
  rw [if_neg (by simp [hlen])]
  split
  · rfl
  · rw [hdot, zero_div]

/-- C4: `calculateCosineSimilarity` throws the dimension-mismatch error exactly
on unequal lengths; with equal lengths it returns 0 (no exception) when either
vector has zero magnitude; any returned value lies in [-1, 1]; identical
non-zero vectors score exactly 1 (hence within 1e-9 of 1.0); orthogonal vectors
score 0. -/
theorem calculateCosineSimilarity_spec :
    (∀ a b : List ℝ, a.length ≠ b.length →
        calculateCosineSimilarity a b = .error .dimensionMismatch)
    ∧ (∀ a b : List ℝ, a.length = b.length → (sumSq a = 0 ∨ sumSq b = 0) →
        calculateCosineSimilarity a b = .ok 0)
    ∧ (∀ (a b : List ℝ) (s : ℝ), calculateCosineSimilarity a b = .ok s →
        -1 ≤ s ∧ s ≤ 1)
    ∧ (∀ a : List ℝ, sumSq a ≠ 0 → calculateCosineSimilarity a a = .ok 1)
    ∧ (∀ a b : List ℝ, a.length = b.length → dotProduct a b = 0 →
        calculateCosineSimilarity a b = .ok 0) :=
  ⟨fun _ _ h => cosine_dimension_mismatch h,
   fun _ _ hlen h => cosine_zero_magnitude hlen h,
   fun _ _ _ h => cosine_bounds h,
   fun _ h => cosine_self h,
   fun _ _ hlen hdot => cosine_orthogonal hlen hdot⟩

/-! ## Lemmas about `findSimilarVectors` -/

theorem cosine_isOk_iff (a b : List ℝ) :
    (∃ s, calculateCosineSimilarity a b = .ok s) ↔ a.length = b.length := by
  unfold calculateCosineSimilarity
  split
  · rename_i h
    simp [h]
  · rename_i h
    push_neg at h
    split
    · simp [h]
    · simp [h]

theorem scoreCandidate_isOk_iff (queryVector : List ℝ) (c : VectorCandidate) :
    (∃ r, scoreCandidate queryVector c = .ok r)
      ↔ ∃ v, c.vector = some v ∧ v.length = queryVector.length := by
  unfold scoreCandidate
  cases hv : c.vector with
  | none => simp
  | some v =>
    simp only [hv, Option.some.injEq]
    cases hcos : calculateCosineSimilarity queryVector v with
    | error e =>
      simp only [hcos]
      constructor
      · rintro ⟨r, hr⟩
        exact absurd hr (by simp)
      · rintro ⟨v0, rfl, hlen⟩
        rcases (cosine_isOk_iff queryVector v).2 hlen.symm with ⟨s, hs⟩
        rw [hs] at hcos
        exact absurd hcos (by simp)
    | ok s =>
      simp only [hcos]
      constructor
      · rintro ⟨r, _⟩
        exact ⟨v, rfl, ((cosine_isOk_iff queryVector v).1 ⟨s, hcos⟩).symm⟩
      · rintro ⟨v0, rfl, _⟩
        exact ⟨⟨c.id, s⟩, rfl⟩

theorem scoreCandidates_ok_iff (queryVector : List ℝ) (cands : List VectorCandidate) :
    (∃ rs, scoreCandidates queryVector cands = .ok rs)
      ↔ ∀ c ∈ cands, ∃ v, c.vector = some v ∧ v.length = queryVector.length := by
  induction cands with
  | nil => simp [scoreCandidates]
  | cons c cs ih =>
    unfold scoreCandidates
    cases hsc : scoreCandidate queryVector c with
    | error e =>
      simp only [hsc]
      constructor
      · rintro ⟨rs, hrs⟩
        exact absurd hrs (by simp)
      · intro hall
        rcases (scoreCandidate_isOk_iff queryVector c).2
            (hall c (List.mem_cons_self _ _)) with ⟨r, hr⟩
        rw [hr] at hsc
        exact absurd hsc (by simp)
    | ok r =>
      simp only [hsc]
      cases hcs : scoreCandidates queryVector cs with
      | error e =>
        simp only [hcs]
        constructor
        · rintro ⟨rs, hrs⟩
          exact absurd hrs (by simp)
        · intro hall
          have : ∃ rs, scoreCandidates queryVector cs = .ok rs :=
            ih.2 (fun c0 hc0 => hall c0 (List.mem_cons_of_mem _ hc0))
          rcases this with ⟨rs, hrs⟩
          rw [hrs] at hcs
          exact absurd hcs (by simp)
      | ok rs =>
        simp only [hcs]
        constructor
        · intro _
          intro c0 hc0
          rcases List.mem_cons.1 hc0 with rfl | hc0
          · exact (scoreCandidate_isOk_iff queryVector c0).1 ⟨r, hsc⟩
          · exact ih.1 ⟨rs, hcs⟩ c0 hc0
        · intro _
          exact ⟨r :: rs, rfl⟩

/-- C3 counterexample: a single candidate whose vector has dimension 2 against a
1-dimensional reference makes the whole `findSimilarVectors` call throw the
dimension-mismatch error (regardless of threshold 0); the candidate is not
skipped and no result list is produced. -/
theorem findSimilarVectors_invalid_counterexample :
    findSimilarVectors [1] [⟨7, some [1, 2]⟩] 10 0 = .error .dimensionMismatch := by
  have h : calculateCosineSimilarity [(1 : ℝ)] [1, 2] = .error .dimensionMismatch :=
    cosine_dimension_mismatch (by simp)
  simp [findSimilarVectors, scoreCandidates, scoreCandidate, h]

/-- C3 (amended): `findSimilarVectors` does NOT skip a candidate with a missing
or dimensionally-invalid vector: it returns a result exactly when every
candidate carries a present vector of the reference's dimension, and the
presence of any invalid candidate fails the whole call with an error (a type
error for a missing vector, the dimension-mismatch error for a wrong-length
one). -/
theorem findSimilarVectors_ok_iff_all_valid (queryVector : List ℝ)
    (candidateVectors : List VectorCandidate) (limit : Nat) (threshold : ℝ) :
    ((∃ rs, findSimilarVectors queryVector candidateVectors limit threshold = .ok rs)
        ↔ ∀ c ∈ candidateVectors, ∃ v, c.vector = some v ∧ v.length = queryVector.length)
    ∧ ((∃ c ∈ candidateVectors, c.vector = none
          ∨ ∀ v, c.vector = some v → v.length ≠ queryVector.length) →
        ∃ e, findSimilarVectors queryVector candidateVectors limit threshold = .error e) := by
  have hok : (∃ rs, findSimilarVectors queryVector candidateVectors limit threshold = .ok rs)
      ↔ ∃ sims, scoreCandidates queryVector candidateVectors = .ok sims := by
    unfold findSimilarVectors
    cases hsc : scoreCandidates queryVector candidateVectors with
    | error e => simp [hsc]
    | ok sims => simp [hsc]
  constructor
  · rw [hok]
    exact scoreCandidates_ok_iff queryVector candidateVectors
  · rintro ⟨c, hc, hbad⟩
    cases hres : findSimilarVectors queryVector candidateVectors limit threshold with
    | error e => exact ⟨e, rfl⟩
    | ok rs =>
      have hall := (hok.1 ⟨rs, hres⟩)
      rcases (scoreCandidates_ok_iff queryVector candidateVectors).1 hall c hc
        with ⟨v, hv, hlen⟩
      rcases hbad with hnone | hwrong
      · rw [hnone] at hv
        exact absurd hv (by simp)
      · exact absurd hlen (hwrong v hv)

/-! ## Lemmas about `findSimilarEntries` -/

theorem findSimilarVectors_nil (queryVector : List ℝ) (limit : Nat) (threshold : ℝ) :
    findSimilarVectors queryVector [] limit threshold = .ok [] := by
  simp [findSimilarVectors, scoreCandidates]

/-- C6 counterexample: a store holding only the reference entry (so the
candidate pool is literally empty) returns an empty result list with no error;
the claim demands an EmptyCandidatePool failure, which the code does not have. -/
theorem findSimilarEntries_empty_pool_counterexample :
    findSimilarEntries [⟨1, 1, some [1]⟩] 1 1 10 (7/10) = .ok [] := rfl

/-- C6 (amended): `findSimilarEntries` fails with the reference-not-found error
exactly when no stored entry matches the reference id, the user, and a present
embedding vector; there is no EmptyCandidatePool failure: when the reference
resolves but no other entry of the user has a vector (an empty candidate pool),
the call returns an empty result list without error. -/
theorem findSimilarEntries_error_spec (store : List StoredEntry)
    (entryId userId limit : Nat) (threshold : ℝ) :
    (findSimilarEntries store entryId userId limit threshold = .error .referenceNotFound
        ↔ ∀ e ∈ store, ¬(e.id = entryId ∧ e.userId = userId ∧ e.vector.isSome = true))
    ∧ ((∃ e ∈ store, e.id = entryId ∧ e.userId = userId ∧ e.vector.isSome = true) →
        (∀ e ∈ store, ¬(e.userId = userId ∧ e.id ≠ entryId ∧ e.vector.isSome = true)) →
        findSimilarEntries store entryId userId limit threshold = .ok []) := by
  have hcand : (∀ e ∈ store, ¬(e.userId = userId ∧ e.id ≠ entryId ∧ e.vector.isSome = true)) →
      store.filter (fun e => e.userId == userId && e.id != entryId && e.vector.isSome) = [] := by
    intro hnone
    rw [List.filter_eq_nil_iff]
    intro e he hc
    simp only [Bool.and_eq_true, beq_iff_eq, bne_iff_ne] at hc
    exact hnone e he ⟨hc.1.1, hc.1.2, hc.2⟩
  constructor
  · unfold findSimilarEntries
    split
    · rename_i hh
      rw [List.head?_eq_none_iff, List.filter_eq_nil_iff] at hh
      refine iff_of_true rfl ?_
      intro e he hc
      refine hh e he ?_
      simp [hc.1, hc.2.1, hc.2.2]
    · rename_i ref hh
      have href := List.mem_of_mem_head? (by simp [hh] :
        ref ∈ (store.filter
          (fun e => e.id == entryId && e.userId == userId && e.vector.isSome)).head?)
      have hmem := List.mem_filter.1 href
      have hp := hmem.2
      simp only [Bool.and_eq_true, beq_iff_eq] at hp
      have hRHS : ¬ ∀ e ∈ store, ¬(e.id = entryId ∧ e.userId = userId ∧ e.vector.isSome = true) :=
        fun hall => hall ref hmem.1 ⟨hp.1.1, hp.1.2, hp.2⟩
      refine iff_of_false ?_ hRHS
      split
      · rename_i hv
        rw [hv] at hp
        exact absurd hp.2 (by simp)
      · rename_i v hv
        cases hfv : findSimilarVectors v
            ((store.filter (fun e => e.userId == userId && e.id != entryId && e.vector.isSome)).map
              (fun e => VectorCandidate.mk e.id e.vector)) limit threshold with
        | error e => simp [hfv]
        | ok rs => simp [hfv]
  · rintro ⟨e0, he0, hprops⟩ hnone
    unfold findSimilarEntries
    split
    · rename_i hh
      rw [List.head?_eq_none_iff, List.filter_eq_nil_iff] at hh
      exact absurd (by simp [hprops.1, hprops.2.1, hprops.2.2] :
        (fun e => e.id == entryId && e.userId == userId && e.vector.isSome) e0 = true)
        (hh e0 he0)
    · rename_i ref hh
      have href := List.mem_of_mem_head? (by simp [hh] :
        ref ∈ (store.filter
          (fun e => e.id == entryId && e.userId == userId && e.vector.isSome)).head?)
      have hp := (List.mem_filter.1 href).2
      simp only [Bool.and_eq_true, beq_iff_eq] at hp
      split
      · rename_i hv
        rw [hv] at hp
        exact absurd hp.2 (by simp)
      · rename_i v hv
        rw [hcand hnone]
        simp [findSimilarVectors_nil]

/-! ## Lemmas about the embedding lifecycle coordinator (spec-modelled) -/

theorem coordinator_inflight_nodup {s : CoordinatorState} (h : CoordinatorReachable s) :
    s.inFlight.Nodup := by
  induction h with
  | init => exact List.nodup_nil
  | beginStep cs _ ih =>
    unfold beginEmbeddingComputation
    split
    · exact ih
    · rename_i hmem
      exact List.nodup_cons.2 ⟨hmem, ih⟩
  | completeStep cs _ ih => exact ih.filter _

/-- C7: the coordinator keeps at most one in-flight computation per checksum in
every reachable state (the in-flight list is duplicate-free); of two begin
requests for the same checksum issued while none is pending, the first gets
`dispatch`, the second `joinExisting`; a request while one is already pending
gets `joinExisting`; completion removes the checksum from the in-flight set. -/
theorem beginEmbeddingComputation_dedup :
    (∀ s : CoordinatorState, CoordinatorReachable s → s.inFlight.Nodup)
    ∧ (∀ (s : CoordinatorState) (cs : Nat), cs ∉ s.inFlight →
        (beginEmbeddingComputation s cs).1 = ⟨true, false⟩
          ∧ (beginEmbeddingComputation (beginEmbeddingComputation s cs).2 cs).1
              = ⟨false, true⟩)
    ∧ (∀ (s : CoordinatorState) (cs : Nat), cs ∈ s.inFlight →
        (beginEmbeddingComputation s cs).1 = ⟨false, true⟩)
    ∧ (∀ (s : CoordinatorState) (cs : Nat),
        cs ∉ (completeEmbeddingComputation s cs).inFlight) := by
  refine ⟨fun _ h => coordinator_inflight_nodup h, ?_, ?_, ?_⟩
  · intro s cs hmem
    constructor
    · simp [beginEmbeddingComputation, hmem]
    · simp [beginEmbeddingComputation, hmem]
  · intro s cs hmem
    simp [beginEmbeddingComputation, hmem]
  · intro s cs
    simp [completeEmbeddingComputation, List.mem_filter]

/-! ## Lemmas about the embedding checksum -/

theorem foldl_add_range_const (n : Nat) (c : ℚ) :
    ((List.range n).map (fun _ => c)).foldl (fun acc val => acc + val) 0 = n * c := by
  induction n with
  | zero => simp
  | succ k ih =>
    rw [List.range_succ, List.map_append, List.foldl_append, ih]
    push_cast
    simp
    ring

/-- C8: the recorded checksum is NOT a function of the input text.  The local
(shipped) embedding path draws the vector from `Math.random()` and computes the
checksum from that vector, so two calls on the same text with different random
draws record different checksums: with every draw 0.5 the checksum is 0, with
every draw 0 it is 192. -/
theorem generateEmbedding_checksum_not_deterministic :
    (generateEmbedding 1 (fun _ => 1/2)).checksum
      ≠ (generateEmbedding 1 (fun _ => 0)).checksum := by
  have h1 : (generateEmbedding 1 (fun _ => 1/2)).checksum = |(384 : ℚ) * ((1 : ℚ)/2 - 1/2)| := by
    show |((List.range 384).map (fun _ => (1 : ℚ)/2 - 1/2)).foldl (fun acc val => acc + val) 0| = _
    rw [foldl_add_range_const]
    norm_cast
  have h2 : (generateEmbedding 1 (fun _ => 0)).checksum = |(384 : ℚ) * ((0 : ℚ) - 1/2)| := by
    show |((List.range 384).map (fun _ => (0 : ℚ) - 1/2)).foldl (fun acc val => acc + val) 0| = _
    rw [foldl_add_range_const]
    norm_cast
  rw [h1, h2, show (384 : ℚ) * ((1 : ℚ)/2 - 1/2) = 0 by norm_num,
    show (384 : ℚ) * ((0 : ℚ) - 1/2) = -(192 : ℚ) by norm_num, abs_zero, abs_neg,
    abs_of_pos (by norm_num : (0 : ℚ) < 192)]
  norm_num

/-! ## Lemmas about the embedding dimension validation -/

theorem vectorPassesSchemaValidation_iff_nil (dim : Nat) (vector : List ℚ) :
    vectorPassesSchemaValidation dim vector = true ↔ vector = [] := by
  cases vector with
  | nil => simp [vectorPassesSchemaValidation]
  | cons x xs =>
    simp [vectorPassesSchemaValidation, embeddingVectorValidator, jsLength]

/-- C9: the schema's `validate` sits on the array's element descriptor, so
Mongoose runs it per `Number` element, where `arr.length` is `undefined`; the
code therefore rejects EVERY non-empty vector — a correct-length one included —
and accepts the empty vector (length 0, not the configured dimension),
contradicting the claimed invariant and the validator's own error message.
Concretely, with configured dimension 2, saving the correct-length vector
[0.5, 0.5] fails validation while saving [] succeeds; in general a vector
passes schema validation iff it is empty, so a locally generated (384-entry)
embedding is always rejected. -/
theorem saveEntryEmbedding_element_validation :
    saveEntryEmbedding 2 [] 1 [1/2, 1/2] = .error .validationFailed
    ∧ saveEntryEmbedding 2 [] 1 [] = .ok [⟨1, some []⟩]
    ∧ (∀ (dim : Nat) (vector : List ℚ),
        vectorPassesSchemaValidation dim vector = true ↔ vector = [])
    ∧ (∀ (dim : Nat) (store : List EntryRecord) (entryId : Nat) (rng : Nat → ℚ),
        saveEntryEmbedding dim store entryId (generateLocalEmbedding rng)
          = .error .validationFailed) := by
  refine ⟨rfl, rfl, vectorPassesSchemaValidation_iff_nil, ?_⟩
  intro dim store entryId rng
  unfold saveEntryEmbedding
  rw [if_neg]
  intro hval
  have hnil := (vectorPassesSchemaValidation_iff_nil dim _).1 hval
  have hlen : (generateLocalEmbedding rng).length = 384 := by
    simp [generateLocalEmbedding]
  rw [hnil] at hlen
  exact absurd hlen (by simp)
